import Mathlib

/-!
Shallow embedding of the price-estimation engine of `src/backend/index.js`
(Rootstock GasLens).  The estimator samples a 20-block window, extracts
priced transactions, classifies them, measures congestion and produces a
three-tier price estimate with a deterministic fallback.

Modelling conventions:
* JS numbers produced by `parseInt` / arithmetic on number literals are
  IEEE-754 binary64 values.  Every number appearing here is a non-negative
  integer or a dyadic rational, so the double semantics is modelled exactly
  with natural-number arithmetic: `rne53` rounds an integer to 53
  significant bits (round to nearest, ties to even), which is precisely
  how an integer is converted to a double, and `jsFloorMul a s n` is
  `Math.floor(n * lit)` for the double literal `lit = a / 2^s`.
* The congestion quotient (line 80) is modelled as an exact rational;
  the comparisons against the literals `0.5` (exactly representable) and
  `0.2` (whose double value is `3602879701896397 / 2^54`) agree with the
  double computation for all prices below `2^51`.
* The asynchronous chain-data source is a record of `Except`-valued
  fields; `Promise.all` is sequential traversal that stops at the first
  rejection.
-/

namespace GasLens

/-- Window size, `BLOCKS_TO_ANALYZE = 20` (line 11). -/
def BLOCKS_TO_ANALYZE : Nat := 20

/-- A transaction as seen by the estimator: an optional exact (BigNumber)
gas price and the payload string `tx.data` modelled as a character list. -/
structure Tx where
  gasPrice : Option Nat
  data : List Char
deriving DecidableEq

/-- A block: its transactions and its timestamp. -/
structure Block where
  transactions : List Tx
  timestamp : Nat
deriving DecidableEq

/-- A price sample pushed onto `gasPrices` (lines 53-58). -/
structure Sample where
  price : Nat
  blockAge : Nat
  isContractCall : Bool
  timestamp : Nat
deriving DecidableEq

/-- Fuel-driven binary logarithm: `log2p fuel n = ⌊log₂ n⌋` whenever
`1 ≤ n ≤ fuel`.  Structural recursion on the fuel, so it reduces in the
kernel. -/
def log2p : Nat → Nat → Nat
  | 0, _ => 0
  | fuel + 1, n => if n ≤ 1 then 0 else log2p fuel (n / 2) + 1

/-- Round `m` to a multiple of `2^k`, to nearest with ties to even. -/
def roundAt (m k : Nat) : Nat :=
  if 2 ^ (k - 1) < m % 2 ^ k ∨ (m % 2 ^ k = 2 ^ (k - 1) ∧ m / 2 ^ k % 2 = 1) then
    (m / 2 ^ k + 1) * 2 ^ k
  else m / 2 ^ k * 2 ^ k

/-- Round a natural number to at most 53 significant bits, round to
nearest with ties to even.  This is exactly the value of the IEEE-754
binary64 double nearest to `m` (for `m` far below the overflow
threshold), hence the value `parseInt` produces on the decimal string of
`m` (lines 52 and 136). -/
def rne53 (m : Nat) : Nat :=
  if m < 2 ^ 53 then m else roundAt m (log2p m m - 52)

/-- `Math.floor(n * lit)` where `lit` is the double whose exact value is
`a / 2^s` and `n` is an exactly representable non-negative integer:
the double product is the 53-bit rounding of the dyadic `n*a / 2^s`. -/
def jsFloorMul (a s n : Nat) : Nat :=
  rne53 (n * a) / 2 ^ s

/-- Congestion bands chosen at lines 84-99. -/
inductive Band
  | high
  | medium
  | low
deriving DecidableEq

/-- The percentile literals of each band, as exact values `a / 2^s` of
the IEEE-754 doubles written in the source:
`0.1 = 3602879701896397/2^55`, `0.4 = 3602879701896397/2^53`,
`0.7 = 3152519739159347/2^52`, `0.15 = 5404319552844595/2^55`,
`0.45 = 8106479329266893/2^54`, `0.75 = 3/2^2`,
`0.2 = 3602879701896397/2^54`, `0.5 = 1/2^1`, `0.8 = 3602879701896397/2^52`. -/
def bandPercentiles : Band → (Nat × Nat) × (Nat × Nat) × (Nat × Nat)
  | .high => ((3602879701896397, 55), (3602879701896397, 53), (3152519739159347, 52))
  | .medium => ((5404319552844595, 55), (8106479329266893, 54), (3, 2))
  | .low => ((3602879701896397, 54), (1, 1), (3602879701896397, 52))

/-- `safeLowIndex = Math.max(0, Math.floor(length * safeLowPercentile) - 1)`
(line 102); truncated subtraction on `Nat` coincides with `Math.max(0, · - 1)`. -/
def safeLowIndex (b : Band) (n : Nat) : Nat :=
  jsFloorMul (bandPercentiles b).1.1 (bandPercentiles b).1.2 n - 1

/-- `standardIndex = Math.floor(length * standardPercentile)` (line 103). -/
def standardIndex (b : Band) (n : Nat) : Nat :=
  jsFloorMul (bandPercentiles b).2.1.1 (bandPercentiles b).2.1.2 n

/-- `fastIndex = Math.min(length - 1, Math.floor(length * fastPercentile))`
(line 104). -/
def fastIndex (b : Band) (n : Nat) : Nat :=
  min (n - 1) (jsFloorMul (bandPercentiles b).2.2.1 (bandPercentiles b).2.2.2 n)

/-- The three indices of lines 102-104 as a triple. -/
def tierIndices (b : Band) (n : Nat) : Nat × Nat × Nat :=
  (safeLowIndex b n, standardIndex b n, fastIndex b n)

/-- Lines 79-99: `priceRange = primaryPrices[length-1] - primaryPrices[0]`,
`congestionLevel = priceRange / primaryPrices[0]`, compared against the
literals `0.5` (exactly representable) and `0.2` (whose double value is
`3602879701896397 / 2^54`).  The quotient comparisons are modelled by the
equivalent cross-multiplied integer tests.  When `minP = 0` the JS
quotient is `Infinity` (if `maxP > minP`, selecting the high band) or
`NaN` (if `maxP = minP`, failing both `>` tests, selecting the low band);
the integer tests agree in both cases. -/
def selectBand (minP maxP : Nat) : Band :=
  let priceRange := maxP - minP
  if minP < 2 * priceRange then .high
  else if 3602879701896397 * minP < 2 ^ 54 * priceRange then .medium
  else .low

/-- The congestion ratio `(maxP − minP) / minP` as an exact rational
(line 80 reads `priceRange / primaryPrices[0]`). -/
def congestionRatio (minP maxP : Nat) : ℚ :=
  ((maxP : ℚ) - (minP : ℚ)) / (minP : ℚ)

/-- The congestion ratio of a reference sequence, taken between its
first and last elements (lines 79-80).  On the empty list this is
`0/0 = 0` (the branch is unreachable: it is guarded by
`gasPrices.length > 0`). -/
def congestionLevel (primaryPrices : List Nat) : ℚ :=
  congestionRatio (primaryPrices.headD 0) (primaryPrices.getLastD 0)

/-- Ascending numeric sort, the effect of `.sort((a, b) => a - b)`
(lines 71-72, 77): the result is the unique ascending reordering. -/
def sortAsc (l : List Nat) : List Nat :=
  List.insertionSort (· ≤ ·) l

/-- `isContractCall: tx.data !== '0x' && tx.data.length > 2` (line 56).
The complementary test at line 60 routes the price into
`transactionTypes.simple` / `transactionTypes.contract`. -/
def isContractCallData (d : List Char) : Bool :=
  decide (d ≠ ['0', 'x']) && decide (2 < d.length)

/-- Extraction of one transaction (lines 51-58): admitted only when the
gas price is present and strictly positive; the stored price is the
double `parseInt` produces, i.e. `rne53` of the exact integer. -/
def txSample (blockAge : Nat) (bTimestamp : Nat) (tx : Tx) : Option Sample :=
  match tx.gasPrice with
  | some gp =>
      if 0 < gp then
        some { price := rne53 gp
               blockAge := blockAge
               isContractCall := isContractCallData tx.data
               timestamp := bTimestamp }
      else none
  | none => none

/-- The two nested loops of lines 47-68: walk the fetched window (a
missing block is skipped by the `block && block.transactions` guard) and
collect the admitted samples in order; `blockAge` is the index of the
block within the window. -/
def samplesFrom (blockIndex : Nat) : List (Option Block) → List Sample
  | [] => []
  | none :: bs => samplesFrom (blockIndex + 1) bs
  | some b :: bs =>
      b.transactions.filterMap (txSample blockIndex b.timestamp) ++ samplesFrom (blockIndex + 1) bs

/-- All samples of the fetched window, `gasPrices` after the loop. -/
def samplesOfBlocks (blocks : List (Option Block)) : List Sample :=
  samplesFrom 0 blocks

/-- The price/classification content of the sample set; `blockAge` and
`timestamp` are forgotten. -/
def samplePairs (blocks : List (Option Block)) : List (Nat × Bool) :=
  (samplesOfBlocks blocks).map (fun s => (s.price, s.isContractCall))

/-- Reference-sequence selection (lines 71-77): prefer the ascending
contract-call prices when non-empty, otherwise the full combined sorted
price list.  (`simpleTransferPrices` of line 71 is only logged and does
not influence the result.) -/
def primarySeq (gasPrices : List Sample) : List Nat :=
  let contractCallPrices := sortAsc ((gasPrices.filter (fun s => s.isContractCall)).map (fun s => s.price))
  if 0 < contractCallPrices.length then contractCallPrices
  else sortAsc (gasPrices.map (fun s => s.price))

/-- Lines 79-118 applied to the chosen reference sequence: congestion
measurement, band selection, index computation and tier pick-out. -/
def calcFromPrimary (primaryPrices : List Nat) : Nat × Nat × Nat :=
  let band := selectBand (primaryPrices.headD 0) (primaryPrices.getLastD 0)
  let n := primaryPrices.length
  (primaryPrices.getD (safeLowIndex band n) 0,
   primaryPrices.getD (standardIndex band n) 0,
   primaryPrices.getD (fastIndex band n) 0)

/-- The sample-driven part of `calculateGasPrices` (lines 44-122):
`some` tiers when at least one sample was admitted, `none` when the
code would take the fallback path. -/
def calcTiersFromBlocks (blocks : List (Option Block)) : Option (Nat × Nat × Nat) :=
  let gasPrices := samplesOfBlocks blocks
  if 0 < gasPrices.length then some (calcFromPrimary (primarySeq gasPrices)) else none

/-- `calculateFallbackGasPrices` (lines 133-150), numerically:
`basePrice = parseInt(baseGasPrice.toString())`, then
`Math.floor(basePrice * 0.7)`, `basePrice`, `Math.floor(basePrice * 1.5)`
(`0.7 = 3152519739159347/2^52` and `1.5 = 3/2^1` as doubles). -/
def fallbackTiers (rawBase : Nat) : Nat × Nat × Nat :=
  let basePrice := rne53 rawBase
  (jsFloorMul 3152519739159347 52 basePrice, basePrice, jsFloorMul 3 1 basePrice)

/-- The chain data source consumed by the estimator. -/
structure Provider where
  getBlockNumber : Except String Int
  getBlockWithTransactions : Int → Except String (Option Block)
  getGasPrice : Except String Nat

/-- `Promise.all` over the pending fetches: succeeds with all results,
or aborts with the (first) rejection. -/
def promiseAll (f : Nat → Except String (Option Block)) : List Nat → Except String (List (Option Block))
  | [] => .ok []
  | i :: is =>
      match f i with
      | .error e => .error e
      | .ok b =>
          match promiseAll f is with
          | .error e => .error e
          | .ok bs => .ok (b :: bs)

/-- Lines 37-43: fetch blocks `latest, latest-1, …, latest-19` and wait
for all of them. -/
def fetchBlocks (pr : Provider) (latest : Int) : Except String (List (Option Block)) :=
  promiseAll (fun i => pr.getBlockWithTransactions (latest - (i : Int))) (List.range BLOCKS_TO_ANALYZE)

/-- `calculateGasPrices` with the tier values kept numeric: the full
control flow of lines 32-128 and 133-150, with every thrown error
surfaced through `Except` exactly as the `catch` blocks wrap it. -/
def estimateTiers (pr : Provider) : Except String (Nat × Nat × Nat) :=
  match pr.getBlockNumber with
  | .error e => .error ("Failed to calculate gas prices: " ++ e)
  | .ok latest =>
      match fetchBlocks pr latest with
      | .error e => .error ("Failed to calculate gas prices: " ++ e)
      | .ok blocks =>
          match calcTiersFromBlocks blocks with
          | some t => .ok t
          | none =>
              match pr.getGasPrice with
              | .error e =>
                  .error ("Failed to calculate gas prices: " ++ ("Fallback calculation failed: " ++ e))
              | .ok base => .ok (fallbackTiers base)

/-- The record `calculateGasPrices` actually returns (lines 114-118 and
146-150): the three tiers already converted to decimal strings. -/
structure GasPrices where
  safeLow : String
  standard : String
  fast : String
deriving DecidableEq

/-- `calculateGasPrices` (lines 32-128): as in the source, `toString`
is applied to each tier at both return sites. -/
def calculateGasPrices (pr : Provider) : Except String GasPrices :=
  match pr.getBlockNumber with
  | .error e => .error ("Failed to calculate gas prices: " ++ e)
  | .ok latest =>
      match fetchBlocks pr latest with
      | .error e => .error ("Failed to calculate gas prices: " ++ e)
      | .ok blocks =>
          match calcTiersFromBlocks blocks with
          | some t => .ok { safeLow := Nat.repr t.1, standard := Nat.repr t.2.1, fast := Nat.repr t.2.2 }
          | none =>
              match pr.getGasPrice with
              | .error e =>
                  .error ("Failed to calculate gas prices: " ++ ("Fallback calculation failed: " ++ e))
              | .ok base =>
                  let t := fallbackTiers base
                  .ok { safeLow := Nat.repr t.1, standard := Nat.repr t.2.1, fast := Nat.repr t.2.2 }

/-- Modelled from the spec: the index formulas of §4.3 read with exact
real arithmetic, `safeLowIndex = max(0, ⌊n·pSafeLow⌋ − 1)`,
`standardIndex = ⌊n·pStandard⌋`, `fastIndex = min(n−1, ⌊n·pFast⌋)`,
with the percentile tables 0.10/0.40/0.70, 0.15/0.45/0.75, 0.20/0.50/0.80. -/
def specTierIndices : Band → Nat → Nat × Nat × Nat
  | .high, n => (n * 1 / 10 - 1, n * 4 / 10, min (n - 1) (n * 7 / 10))
  | .medium, n => (n * 15 / 100 - 1, n * 45 / 100, min (n - 1) (n * 75 / 100))
  | .low, n => (n * 2 / 10 - 1, n * 5 / 10, min (n - 1) (n * 8 / 10))

/-- Modelled from the spec: the fallback formulas of §4.4 read with
exact arithmetic, `(⌊base·0.7⌋, base, ⌊base·1.5⌋)`. -/
def specFallbackTiers (base : Nat) : Nat × Nat × Nat :=
  (base * 7 / 10, base, base * 3 / 2)

/-! ### Concrete inputs used to exercise the definitions -/

/-- A window source whose 20 blocks all exist but carry no transactions;
its base gas price is 100. -/
def providerEmptyWindow : Provider :=
  { getBlockNumber := .ok 100
    getBlockWithTransactions := fun _ => .ok (some ⟨[], 5⟩)
    getGasPrice := .ok 100 }

/-- A window source with a single contract-call transaction priced 50 in
the newest block. -/
def providerOneTx : Provider :=
  { getBlockNumber := .ok 100
    getBlockWithTransactions := fun z =>
      .ok (some (if z = 100 then ⟨[⟨some 50, ['0', 'x', 'a', 'b']⟩], 7⟩ else ⟨[], 7⟩))
    getGasPrice := .ok 100 }

/-- A window source whose 17th fetched block (index 16) fails. -/
def providerFail : Provider :=
  { getBlockNumber := .ok 100
    getBlockWithTransactions := fun z =>
      if z = 100 - 16 then .error "block fetch failed" else .ok (some ⟨[], 0⟩)
    getGasPrice := .ok 100 }

/-- The spec §8 scenario: five simple transfers at 10 and one contract
call at 100 in a single block. -/
def scenarioBlocks : List (Option Block) :=
  [some ⟨[⟨some 10, ['0', 'x']⟩, ⟨some 10, ['0', 'x']⟩, ⟨some 10, ['0', 'x']⟩,
          ⟨some 10, ['0', 'x']⟩, ⟨some 10, ['0', 'x']⟩, ⟨some 100, ['0', 'x', 'a', 'b']⟩], 3⟩]

/-- Two windows carrying the same priced/classified transactions at
different window positions and timestamps. -/
def permBlocksA : List (Option Block) :=
  [some ⟨[⟨some 30, ['0', 'x']⟩], 11⟩, some ⟨[⟨some 20, ['0', 'x', 'a', 'b']⟩], 12⟩]

def permBlocksB : List (Option Block) :=
  [some ⟨[], 99⟩, some ⟨[⟨some 20, ['0', 'x', 'a', 'b']⟩, ⟨some 30, ['0', 'x']⟩], 7⟩]

/-- A single contract call priced `2^53 + 1`, one above the largest odd
integer an IEEE-754 double can hold. -/
def blockBigPrice : Block :=
  ⟨[⟨some (2 ^ 53 + 1), ['0', 'x', 'a', 'b']⟩], 0⟩

/-! ### Properties of the rounding model -/

theorem log2p_bounds : ∀ (fuel n : Nat), 0 < n → n ≤ fuel →
    2 ^ log2p fuel n ≤ n ∧ n < 2 ^ (log2p fuel n + 1) := by
  intro fuel
  induction fuel with
  | zero => intro n hn hf; omega
  | succ f ih =>
      intro n hn hf
      by_cases h1 : n ≤ 1
      · have hn1 : n = 1 := by omega
        simp [log2p, hn1]
      · have h2 : 2 ≤ n := by omega
        have hn2 : 0 < n / 2 := by omega
        have hf2 : n / 2 ≤ f := by omega
        obtain ⟨ha, hb⟩ := ih (n / 2) hn2 hf2
        have hval : log2p (f + 1) n = log2p f (n / 2) + 1 := by
          simp [log2p, h1]
        rw [hval]
        constructor
        · rw [pow_succ]
          omega
        · rw [pow_succ]
          omega

theorem rne53_of_lt {m : Nat} (h : m < 2 ^ 53) : rne53 m = m := by
  rw [rne53, if_pos h]

/-- The rounding at grid `2^k` is within `2^(k-1)` of the input. -/
theorem roundAt_bounds (m k : Nat) (hk1 : 1 ≤ k) :
    roundAt m k ≤ m + 2 ^ (k - 1) ∧ m ≤ roundAt m k + 2 ^ (k - 1) := by
  have hhalf : 2 ^ k = 2 ^ (k - 1) + 2 ^ (k - 1) := by
    have hkk : 2 ^ (k - 1 + 1) = 2 ^ (k - 1) * 2 := pow_succ 2 (k - 1)
    have hke : k - 1 + 1 = k := by omega
    rw [hke] at hkk
    omega
  have hdm : 2 ^ k * (m / 2 ^ k) + m % 2 ^ k = m := Nat.div_add_mod m (2 ^ k)
  have hrlt : m % 2 ^ k < 2 ^ k := Nat.mod_lt m (by positivity)
  rw [roundAt]
  split
  · rename_i hcond
    have hrge : 2 ^ (k - 1) ≤ m % 2 ^ k := by
      rcases hcond with h' | h'
      · omega
      · omega
    have hexp : (m / 2 ^ k + 1) * 2 ^ k = 2 ^ k * (m / 2 ^ k) + 2 ^ k := by ring
    rw [hexp]
    generalize hQ : 2 ^ k * (m / 2 ^ k) = Q at hdm
    omega
  · rename_i hcond
    push_neg at hcond
    have hrle : m % 2 ^ k ≤ 2 ^ (k - 1) := hcond.1
    have hexp : m / 2 ^ k * 2 ^ k = 2 ^ k * (m / 2 ^ k) := by ring
    rw [hexp]
    generalize hQ : 2 ^ k * (m / 2 ^ k) = Q at hdm
    omega

/-- The 53-bit rounding is within half an ulp: multiplicatively,
`|rne53 m − m| ≤ m / 2^53`. -/
theorem rne53_bounds (m : Nat) :
    2 ^ 53 * rne53 m ≤ 2 ^ 53 * m + m ∧ 2 ^ 53 * m ≤ 2 ^ 53 * rne53 m + m := by
  by_cases h : m < 2 ^ 53
  · rw [rne53_of_lt h]; omega
  · push_neg at h
    have hm0 : 0 < m := by
      have h0 : (0 : Nat) < 2 ^ 53 := by norm_num
      omega
    obtain ⟨hle, hlt⟩ := log2p_bounds m m hm0 le_rfl
    have hL53 : 53 ≤ log2p m m := by
      by_contra hc
      push_neg at hc
      have h1 : log2p m m + 1 ≤ 53 := by omega
      have h2 : 2 ^ (log2p m m + 1) ≤ 2 ^ 53 := Nat.pow_le_pow_right (by norm_num) h1
      omega
    have hk1 : 1 ≤ log2p m m - 52 := by omega
    obtain ⟨hu, hl⟩ := roundAt_bounds m (log2p m m - 52) hk1
    have hm2k : 2 ^ 53 * 2 ^ (log2p m m - 52 - 1) ≤ m := by
      have he : 2 ^ 53 * 2 ^ (log2p m m - 52 - 1) = 2 ^ (log2p m m) := by
        rw [← pow_add]
        congr 1
        omega
      rw [he]
      exact hle
    rw [rne53, if_neg (by omega)]
    generalize hR : roundAt m (log2p m m - 52) = R at hu hl
    generalize hH : 2 ^ (log2p m m - 52 - 1) = H at hu hl hm2k
    constructor
    · calc 2 ^ 53 * R ≤ 2 ^ 53 * (m + H) := Nat.mul_le_mul_left _ hu
        _ = 2 ^ 53 * m + 2 ^ 53 * H := by ring
        _ ≤ 2 ^ 53 * m + m := by omega
    · calc 2 ^ 53 * m ≤ 2 ^ 53 * (R + H) := Nat.mul_le_mul_left _ hl
        _ = 2 ^ 53 * R + 2 ^ 53 * H := by ring
        _ ≤ 2 ^ 53 * R + m := by omega

theorem rne53_upper (m : Nat) : 2 ^ 53 * rne53 m ≤ 2 ^ 53 * m + m :=
  (rne53_bounds m).1

theorem rne53_lower (m : Nat) : (2 ^ 53 - 1) * m ≤ 2 ^ 53 * rne53 m := by
  have h := (rne53_bounds m).2
  have h53 : (1 : Nat) ≤ 2 ^ 53 := by norm_num
  calc (2 ^ 53 - 1) * m = 2 ^ 53 * m - m := by
        rw [Nat.sub_mul, one_mul]
    _ ≤ 2 ^ 53 * rne53 m := by omega

/-- Monotone comparison of two double-product floors, from a constant
inequality on the literals that leaves room for both rounding errors. -/
theorem jsFloorMul_le_jsFloorMul {a₁ s₁ a₂ s₂ : Nat}
    (h : (2 ^ 53 + 1) * a₁ * 2 ^ s₂ ≤ (2 ^ 53 - 1) * a₂ * 2 ^ s₁) (n : Nat) :
    jsFloorMul a₁ s₁ n ≤ jsFloorMul a₂ s₂ n := by
  unfold jsFloorMul
  rw [Nat.le_div_iff_mul_le (pow_pos two_pos s₂)]
  have hS1 : (0 : Nat) < 2 ^ 53 * 2 ^ s₁ := by positivity
  refine Nat.le_of_mul_le_mul_left ?_ hS1
  have f1 : rne53 (n * a₁) / 2 ^ s₁ * 2 ^ s₁ ≤ rne53 (n * a₁) := Nat.div_mul_le_self _ _
  have f2 : 2 ^ 53 * rne53 (n * a₁) ≤ (2 ^ 53 + 1) * (n * a₁) := by
    have := rne53_upper (n * a₁)
    calc 2 ^ 53 * rne53 (n * a₁) ≤ 2 ^ 53 * (n * a₁) + n * a₁ := this
      _ = (2 ^ 53 + 1) * (n * a₁) := by ring
  have f3 : (2 ^ 53 - 1) * (n * a₂) ≤ 2 ^ 53 * rne53 (n * a₂) := rne53_lower (n * a₂)
  have f4 : (2 ^ 53 + 1) * (n * a₁) * 2 ^ s₂ ≤ (2 ^ 53 - 1) * (n * a₂) * 2 ^ s₁ := by
    have := Nat.mul_le_mul_left n h
    calc (2 ^ 53 + 1) * (n * a₁) * 2 ^ s₂ = n * ((2 ^ 53 + 1) * a₁ * 2 ^ s₂) := by ring
      _ ≤ n * ((2 ^ 53 - 1) * a₂ * 2 ^ s₁) := this
      _ = (2 ^ 53 - 1) * (n * a₂) * 2 ^ s₁ := by ring
  calc 2 ^ 53 * 2 ^ s₁ * (rne53 (n * a₁) / 2 ^ s₁ * 2 ^ s₂)
      = 2 ^ 53 * 2 ^ s₂ * (rne53 (n * a₁) / 2 ^ s₁ * 2 ^ s₁) := by ring
    _ ≤ 2 ^ 53 * 2 ^ s₂ * rne53 (n * a₁) := Nat.mul_le_mul_left _ f1
    _ = 2 ^ s₂ * (2 ^ 53 * rne53 (n * a₁)) := by ring
    _ ≤ 2 ^ s₂ * ((2 ^ 53 + 1) * (n * a₁)) := Nat.mul_le_mul_left _ f2
    _ = (2 ^ 53 + 1) * (n * a₁) * 2 ^ s₂ := by ring
    _ ≤ (2 ^ 53 - 1) * (n * a₂) * 2 ^ s₁ := f4
    _ = 2 ^ s₁ * ((2 ^ 53 - 1) * (n * a₂)) := by ring
    _ ≤ 2 ^ s₁ * (2 ^ 53 * rne53 (n * a₂)) := Nat.mul_le_mul_left _ f3
    _ = 2 ^ 53 * 2 ^ s₁ * rne53 (n * a₂) := by ring

/-- A double-product floor stays below `c * n` when the literal is
safely below `c`. -/
theorem jsFloorMul_lt_mul {a s c : Nat}
    (h : (2 ^ 53 + 1) * a < 2 ^ 53 * (c * 2 ^ s)) {n : Nat} (hn : 0 < n) :
    jsFloorMul a s n < c * n := by
  unfold jsFloorMul
  rw [Nat.div_lt_iff_lt_mul (pow_pos two_pos s)]
  have key : 2 ^ 53 * rne53 (n * a) + n ≤ 2 ^ 53 * (n * (c * 2 ^ s)) := by
    have f2 : 2 ^ 53 * rne53 (n * a) ≤ n * ((2 ^ 53 + 1) * a) := by
      have := rne53_upper (n * a)
      calc 2 ^ 53 * rne53 (n * a) ≤ 2 ^ 53 * (n * a) + n * a := this
        _ = n * ((2 ^ 53 + 1) * a) := by ring
    have f4 : n * ((2 ^ 53 + 1) * a) + n ≤ n * (2 ^ 53 * (c * 2 ^ s)) := by
      have h' : (2 ^ 53 + 1) * a + 1 ≤ 2 ^ 53 * (c * 2 ^ s) := h
      calc n * ((2 ^ 53 + 1) * a) + n = n * ((2 ^ 53 + 1) * a + 1) := by ring
        _ ≤ n * (2 ^ 53 * (c * 2 ^ s)) := Nat.mul_le_mul_left n h'
    calc 2 ^ 53 * rne53 (n * a) + n ≤ n * ((2 ^ 53 + 1) * a) + n := by omega
      _ ≤ n * (2 ^ 53 * (c * 2 ^ s)) := f4
      _ = 2 ^ 53 * (n * (c * 2 ^ s)) := by ring
  have hlt : 2 ^ 53 * rne53 (n * a) < 2 ^ 53 * (c * n * 2 ^ s) := by
    have : n * (c * 2 ^ s) = c * n * 2 ^ s := by ring
    omega
  exact Nat.lt_of_mul_lt_mul_left hlt

/-- A double-product floor stays at or above `c * n` when the literal is
safely above `c`. -/
theorem mul_le_jsFloorMul {a s c : Nat}
    (h : 2 ^ 53 * (c * 2 ^ s) ≤ (2 ^ 53 - 1) * a) (n : Nat) :
    c * n ≤ jsFloorMul a s n := by
  unfold jsFloorMul
  rw [Nat.le_div_iff_mul_le (pow_pos two_pos s)]
  refine Nat.le_of_mul_le_mul_left ?_ (show (0 : Nat) < 2 ^ 53 by norm_num)
  have f3 : (2 ^ 53 - 1) * (n * a) ≤ 2 ^ 53 * rne53 (n * a) := rne53_lower (n * a)
  calc 2 ^ 53 * (c * n * 2 ^ s) = n * (2 ^ 53 * (c * 2 ^ s)) := by ring
    _ ≤ n * ((2 ^ 53 - 1) * a) := Nat.mul_le_mul_left n h
    _ = (2 ^ 53 - 1) * (n * a) := by ring
    _ ≤ 2 ^ 53 * rne53 (n * a) := f3

/-! ### Index ordering and range facts -/

theorem jsFloorMul_lt_self {a s : Nat} (h : (2 ^ 53 + 1) * a < 2 ^ 53 * 2 ^ s) {n : Nat}
    (hn : 0 < n) : jsFloorMul a s n < n := by
  have h' : (2 ^ 53 + 1) * a < 2 ^ 53 * (1 * 2 ^ s) := by
    rw [one_mul]
    exact h
  have hc := jsFloorMul_lt_mul h' hn
  rw [one_mul] at hc
  exact hc

theorem safeLowIndex_le_standardIndex (b : Band) (n : Nat) :
    safeLowIndex b n ≤ standardIndex b n := by
  cases b <;>
    · simp only [safeLowIndex, standardIndex, bandPercentiles]
      exact le_trans (Nat.sub_le _ 1) (jsFloorMul_le_jsFloorMul (by norm_num) n)

theorem standardIndex_lt (b : Band) {n : Nat} (hn : 0 < n) : standardIndex b n < n := by
  cases b <;>
    · simp only [standardIndex, bandPercentiles]
      exact jsFloorMul_lt_self (by norm_num) hn

theorem jsFloorMul_sub_one_lt {a s : Nat} (h : (2 ^ 53 + 1) * a < 2 ^ 53 * 2 ^ s) {n : Nat}
    (hn : 0 < n) : jsFloorMul a s n - 1 < n := by
  have hs := jsFloorMul_lt_self h hn
  omega

theorem safeLowIndex_lt (b : Band) {n : Nat} (hn : 0 < n) : safeLowIndex b n < n := by
  cases b <;>
    · simp only [safeLowIndex, bandPercentiles]
      exact jsFloorMul_sub_one_lt (by norm_num) hn

theorem standardIndex_le_fastIndex (b : Band) {n : Nat} (hn : 0 < n) :
    standardIndex b n ≤ fastIndex b n := by
  have h1 : standardIndex b n < n := standardIndex_lt b hn
  rw [fastIndex]
  refine le_min (by omega) ?_
  cases b <;>
    · simp only [standardIndex, bandPercentiles]
      exact jsFloorMul_le_jsFloorMul (by norm_num) n

theorem fastIndex_lt (b : Band) {n : Nat} (hn : 0 < n) : fastIndex b n < n := by
  have h : fastIndex b n ≤ n - 1 := min_le_left _ _
  omega

/-! ### Sorted-list facts -/

theorem sortAsc_sorted (l : List Nat) : List.Sorted (· ≤ ·) (sortAsc l) :=
  List.sorted_insertionSort _ l

theorem sortAsc_perm (l : List Nat) : List.Perm (sortAsc l) l :=
  List.perm_insertionSort _ l

theorem sortAsc_length (l : List Nat) : (sortAsc l).length = l.length :=
  List.length_insertionSort _ l

theorem sortAsc_eq_of_perm {l₁ l₂ : List Nat} (h : List.Perm l₁ l₂) : sortAsc l₁ = sortAsc l₂ :=
  List.eq_of_perm_of_sorted (((sortAsc_perm l₁).trans h).trans (sortAsc_perm l₂).symm)
    (sortAsc_sorted l₁) (sortAsc_sorted l₂)

theorem getD_mono_of_sorted {l : List Nat} (hs : List.Sorted (· ≤ ·) l) {i j : Nat}
    (hij : i ≤ j) (hj : j < l.length) : l.getD i 0 ≤ l.getD j 0 := by
  have hi : i < l.length := lt_of_le_of_lt hij hj
  rw [List.getD_eq_getElem l 0 hi, List.getD_eq_getElem l 0 hj]
  have h := hs.rel_get_of_le (a := ⟨i, hi⟩) (b := ⟨j, hj⟩) hij
  simpa using h

/-- The tiers picked from a sorted non-empty reference sequence are
ordered. -/
theorem calcFromPrimary_ordered {l : List Nat} (hne : l ≠ [])
    (hs : List.Sorted (· ≤ ·) l) :
    (calcFromPrimary l).1 ≤ (calcFromPrimary l).2.1 ∧
      (calcFromPrimary l).2.1 ≤ (calcFromPrimary l).2.2 := by
  have hn : 0 < l.length := List.length_pos.mpr hne
  set b := selectBand (l.headD 0) (l.getLastD 0) with hb
  constructor
  · exact getD_mono_of_sorted hs (safeLowIndex_le_standardIndex b l.length)
      (standardIndex_lt b hn)
  · exact getD_mono_of_sorted hs (standardIndex_le_fastIndex b hn)
      (fastIndex_lt b hn)

/-! ### Structural facts about the estimation pipeline -/

theorem primarySeq_sorted (s : List Sample) : List.Sorted (· ≤ ·) (primarySeq s) := by
  unfold primarySeq
  dsimp only
  split
  · exact sortAsc_sorted _
  · exact sortAsc_sorted _

theorem primarySeq_ne_nil {s : List Sample} (h : s ≠ []) : primarySeq s ≠ [] := by
  unfold primarySeq
  dsimp only
  split
  · rename_i hlen
    exact List.ne_nil_of_length_pos hlen
  · refine List.ne_nil_of_length_pos ?_
    rw [sortAsc_length, List.length_map]
    exact List.length_pos.mpr h

theorem calcTiersFromBlocks_some {bs : List (Option Block)} {t : Nat × Nat × Nat}
    (h : calcTiersFromBlocks bs = some t) :
    samplesOfBlocks bs ≠ [] ∧ t = calcFromPrimary (primarySeq (samplesOfBlocks bs)) := by
  unfold calcTiersFromBlocks at h
  dsimp only at h
  split at h
  · rename_i hlen
    refine ⟨List.ne_nil_of_length_pos hlen, ?_⟩
    exact (Option.some.injEq _ _ ▸ h).symm
  · exact absurd h (by simp)

theorem calcTiersFromBlocks_ordered {bs : List (Option Block)} {t : Nat × Nat × Nat}
    (h : calcTiersFromBlocks bs = some t) : t.1 ≤ t.2.1 ∧ t.2.1 ≤ t.2.2 := by
  obtain ⟨hne, ht⟩ := calcTiersFromBlocks_some h
  rw [ht]
  exact calcFromPrimary_ordered (primarySeq_ne_nil hne) (primarySeq_sorted _)

theorem fallbackTiers_ordered (b : Nat) :
    (fallbackTiers b).1 ≤ (fallbackTiers b).2.1 ∧
      (fallbackTiers b).2.1 ≤ (fallbackTiers b).2.2 := by
  unfold fallbackTiers
  constructor
  · by_cases hp : 0 < rne53 b
    · exact le_of_lt (jsFloorMul_lt_self (by norm_num) hp)
    · have hz : rne53 b = 0 := by omega
      simp [hz, jsFloorMul, rne53_of_lt]
  · have h := mul_le_jsFloorMul (a := 3) (s := 1) (c := 1) (by norm_num) (rne53 b)
    simpa using h

theorem promiseAll_error {f : Nat → Except String (Option Block)} :
    ∀ {l : List Nat} {i : Nat} {e : String}, i ∈ l → f i = .error e →
      ∃ msg, promiseAll f l = .error msg := by
  intro l
  induction l with
  | nil => intro i e h; simp at h
  | cons x xs ih =>
      intro i e hmem hf
      cases hfx : f x with
      | error e₂ => exact ⟨e₂, by simp [promiseAll, hfx]⟩
      | ok b =>
          have hix : i ≠ x := by
            intro hh
            rw [hh, hfx] at hf
            cases hf
          have hxs : i ∈ xs := by
            rcases List.mem_cons.mp hmem with h | h
            · exact absurd h hix
            · exact h
          obtain ⟨msg, hmsg⟩ := ih hxs hf
          exact ⟨msg, by simp [promiseAll, hfx, hmsg]⟩

/-! ### Claim theorems -/

/-- C1: every non-error output of the estimator — whether produced by
congestion-aware tier selection over a non-empty sample set or by the
fallback path — satisfies `safeLow ≤ standard ≤ fast`. -/
theorem c1_tiers_ordered (pr : Provider) (t : Nat × Nat × Nat)
    (h : estimateTiers pr = .ok t) : t.1 ≤ t.2.1 ∧ t.2.1 ≤ t.2.2 := by
  unfold estimateTiers at h
  cases hbn : pr.getBlockNumber with
  | error e => simp [hbn] at h
  | ok latest =>
      simp only [hbn] at h
      cases hf : fetchBlocks pr latest with
      | error e => simp [hf] at h
      | ok blocks =>
          simp only [hf] at h
          cases hc : calcTiersFromBlocks blocks with
          | some t' =>
              simp only [hc, Except.ok.injEq] at h
              exact h ▸ calcTiersFromBlocks_ordered hc
          | none =>
              simp only [hc] at h
              cases hg : pr.getGasPrice with
              | error e => simp [hg] at h
              | ok base =>
                  simp only [hg, Except.ok.injEq] at h
                  exact h ▸ fallbackTiers_ordered base

theorem c1_tiers_ordered_witness :
    estimateTiers providerOneTx = .ok (50, 50, 50) ∧
      ((50, 50, 50) : Nat × Nat × Nat).1 ≤ ((50, 50, 50) : Nat × Nat × Nat).2.1 ∧
      ((50, 50, 50) : Nat × Nat × Nat).2.1 ≤ ((50, 50, 50) : Nat × Nat × Nat).2.2 :=
  ⟨rfl, c1_tiers_ordered providerOneTx (50, 50, 50) rfl⟩

/-- C2 (amended): the three tier indices are the double-product floors
`safeLowIndex = max(0, floorD(n·pSafeLow) − 1)`,
`standardIndex = floorD(n·pStandard)`,
`fastIndex = min(n−1, floorD(n·pFast))` where `floorD` is `Math.floor`
of the IEEE-754 binary64 product — which can be one less than the exact
`⌊n·p⌋` — and for every band and every `n ≥ 1` all three indices lie in
`[0, n−1]`. -/
theorem c2_indices_in_range (b : Band) (n : Nat) (hn : 0 < n) :
    safeLowIndex b n < n ∧ standardIndex b n < n ∧ fastIndex b n < n :=
  ⟨safeLowIndex_lt b hn, standardIndex_lt b hn, fastIndex_lt b hn⟩

theorem c2_indices_in_range_witness :
    0 < 90 ∧
      (safeLowIndex Band.high 90 < 90 ∧ standardIndex Band.high 90 < 90 ∧
        fastIndex Band.high 90 < 90) :=
  ⟨by norm_num, c2_indices_in_range Band.high 90 (by norm_num)⟩

/-- C2 counterexample: at `n = 90` in the high band the code's
`Math.floor(90 * 0.7)` is 62 (the double product is just below 63), so
the computed indices `(8, 36, 62)` differ from the exact-arithmetic
formulas of the claim, which give `(8, 36, 63)`. -/
theorem c2_exact_floor_counterexample :
    tierIndices Band.high 90 ≠ specTierIndices Band.high 90 := by decide

/-- C3: the congestion ratio is `(maxP − minP)/minP`, it is 0 for a
singleton reference sequence, band selection is inclusive downward at
the boundaries (ratio > 0.5 → high band; ratio = 0.5 → medium band;
ratio = 0.2 → low band), and for `n = 1` the three indices resolve
to 0. -/
theorem c3_congestion_boundaries :
    (∀ p : Nat, congestionLevel [p] = 0)
    ∧ (∀ minP maxP : Nat, 0 < minP →
        ((1 / 2 : ℚ) < congestionRatio minP maxP → selectBand minP maxP = Band.high)
        ∧ (congestionRatio minP maxP = 1 / 2 → selectBand minP maxP = Band.medium)
        ∧ (congestionRatio minP maxP = 1 / 5 → selectBand minP maxP = Band.low))
    ∧ (∀ p : Nat, tierIndices (selectBand p p) 1 = (0, 0, 0)) := by
  refine ⟨?_, ?_, ?_⟩
  · intro p
    simp [congestionLevel, congestionRatio]
  · intro minP maxP hmin
    have hq0 : (0 : ℚ) < (minP : ℚ) := by exact_mod_cast hmin
    have hqne : (minP : ℚ) ≠ 0 := ne_of_gt hq0
    refine ⟨?_, ?_, ?_⟩
    · intro hlt
      rw [congestionRatio, lt_div_iff₀ hq0] at hlt
      have hmm : (minP : ℚ) < (maxP : ℚ) := by linarith
      have hle : minP ≤ maxP := le_of_lt (by exact_mod_cast hmm)
      have hcast : ((maxP - minP : Nat) : ℚ) = (maxP : ℚ) - (minP : ℚ) :=
        Nat.cast_sub hle
      have hq : (minP : ℚ) < 2 * ((maxP - minP : Nat) : ℚ) := by
        rw [hcast]
        linarith
      have hnat : minP < 2 * (maxP - minP) := by exact_mod_cast hq
      unfold selectBand
      rw [if_pos hnat]
    · intro heq
      rw [congestionRatio, div_eq_iff hqne] at heq
      have hle : (minP : ℚ) ≤ (maxP : ℚ) := by linarith
      have hcast : ((maxP - minP : Nat) : ℚ) = (maxP : ℚ) - (minP : ℚ) :=
        Nat.cast_sub (by exact_mod_cast hle)
      have hq : (2 * (maxP - minP) : Nat) = (minP : Nat) := by
        have hq2 : ((2 * (maxP - minP) : Nat) : ℚ) = ((minP : Nat) : ℚ) := by
          push_cast
          rw [hcast]
          linarith
        exact_mod_cast hq2
      unfold selectBand
      rw [if_neg (by omega), if_pos (by omega)]
    · intro heq
      rw [congestionRatio, div_eq_iff hqne] at heq
      have hle : (minP : ℚ) ≤ (maxP : ℚ) := by linarith
      have hcast : ((maxP - minP : Nat) : ℚ) = (maxP : ℚ) - (minP : ℚ) :=
        Nat.cast_sub (by exact_mod_cast hle)
      have hq : (5 * (maxP - minP) : Nat) = (minP : Nat) := by
        have hq2 : ((5 * (maxP - minP) : Nat) : ℚ) = ((minP : Nat) : ℚ) := by
          push_cast
          rw [hcast]
          linarith
        exact_mod_cast hq2
      unfold selectBand
      rw [if_neg (by omega), if_neg (by omega)]
  · intro p
    have hsb : selectBand p p = Band.low := by
      unfold selectBand
      rw [if_neg (by omega), if_neg (by omega)]
    rw [hsb]
    decide

theorem c3_congestion_boundaries_witness :
    (0 < 2 ∧ congestionRatio 2 3 = 1 / 2) ∧ selectBand 2 3 = Band.medium :=
  ⟨⟨by norm_num, by norm_num [congestionRatio]⟩,
    (c3_congestion_boundaries.2.1 2 3 (by norm_num)).2.1 (by norm_num [congestionRatio])⟩

/-- C4: whenever the contract-call sample list is non-empty — however
small — it is the reference sequence; only when it is empty is the full
combined ascending-sorted price list used. -/
theorem c4_reference_selection (bs : List (Option Block)) :
    ((samplesOfBlocks bs).filter (fun s => s.isContractCall) ≠ [] →
      calcTiersFromBlocks bs =
        some (calcFromPrimary (sortAsc (((samplesOfBlocks bs).filter
          (fun s => s.isContractCall)).map (fun s => s.price)))))
    ∧ (samplesOfBlocks bs ≠ [] →
      (samplesOfBlocks bs).filter (fun s => s.isContractCall) = [] →
      calcTiersFromBlocks bs =
        some (calcFromPrimary (sortAsc ((samplesOfBlocks bs).map (fun s => s.price))))) := by
  constructor
  · intro hfil
    have hne : samplesOfBlocks bs ≠ [] := by
      intro hnil
      rw [hnil] at hfil
      simp at hfil
    have hlen : 0 < (samplesOfBlocks bs).length := List.length_pos.mpr hne
    have hclen : 0 < (sortAsc (((samplesOfBlocks bs).filter
        (fun s => s.isContractCall)).map (fun s => s.price))).length := by
      rw [sortAsc_length, List.length_map]
      exact List.length_pos.mpr hfil
    unfold calcTiersFromBlocks primarySeq
    dsimp only
    rw [if_pos hlen, if_pos hclen]
  · intro hne hfil
    have hlen : 0 < (samplesOfBlocks bs).length := List.length_pos.mpr hne
    have hclen : ¬0 < (sortAsc (((samplesOfBlocks bs).filter
        (fun s => s.isContractCall)).map (fun s => s.price))).length := by
      rw [sortAsc_length, List.length_map, hfil]
      simp
    unfold calcTiersFromBlocks primarySeq
    dsimp only
    rw [if_pos hlen, if_neg hclen]

theorem c4_reference_selection_witness :
    (samplesOfBlocks scenarioBlocks).filter (fun s => s.isContractCall) ≠ [] ∧
      calcTiersFromBlocks scenarioBlocks =
        some (calcFromPrimary (sortAsc (((samplesOfBlocks scenarioBlocks).filter
          (fun s => s.isContractCall)).map (fun s => s.price)))) ∧
      calcTiersFromBlocks scenarioBlocks = some (100, 100, 100) :=
  ⟨by decide, (c4_reference_selection scenarioBlocks).1 (by decide), by decide⟩

/-- C5 (amended): when the combined sample count is zero the estimator
does not fail: it returns the fallback derived from the base price,
`safeLow = Math.floor(base * 0.7)` computed on IEEE-754 doubles (one
below `⌊base·7/10⌋` at e.g. `base = 90`), `standard = base` (for any
base below `2^53`), `fast = Math.floor(base * 1.5)`; in particular
`base = 100` yields `(70, 100, 150)`. -/
theorem c5_zero_samples_fallback (pr : Provider) (latest : Int)
    (bs : List (Option Block)) (base : Nat)
    (h1 : pr.getBlockNumber = .ok latest) (h2 : fetchBlocks pr latest = .ok bs)
    (h3 : samplesOfBlocks bs = []) (h4 : pr.getGasPrice = .ok base) :
    estimateTiers pr = .ok (fallbackTiers base)
    ∧ (base < 2 ^ 53 → (fallbackTiers base).2.1 = base)
    ∧ fallbackTiers 100 = (70, 100, 150) := by
  refine ⟨?_, ?_, by decide⟩
  · have hc : calcTiersFromBlocks bs = none := by
      unfold calcTiersFromBlocks
      dsimp only
      rw [h3]
      simp
    unfold estimateTiers
    simp only [h1, h2, hc, h4]
  · intro hb
    simp [fallbackTiers, rne53_of_lt hb]

theorem c5_zero_samples_fallback_witness :
    estimateTiers providerEmptyWindow = .ok (fallbackTiers 100)
    ∧ (100 < 2 ^ 53 → (fallbackTiers 100).2.1 = 100)
    ∧ fallbackTiers 100 = (70, 100, 150) :=
  c5_zero_samples_fallback providerEmptyWindow 100
    (List.replicate 20 (some ⟨[], 5⟩)) 100 rfl rfl (by decide) rfl

/-- C5 counterexample: at `base = 90` the code computes
`Math.floor(90 * 0.7) = 62` (the double product sits just below 63),
not the exact `⌊90·0.7⌋ = 63` of the claim's formula. -/
theorem c5_exact_floor_counterexample : fallbackTiers 90 ≠ specFallbackTiers 90 := by
  decide

/-- C6: if any single one of the 20 block fetches fails, the whole pass
aborts with one descriptive error and no estimate is returned, not even
from the fetches that succeeded. -/
theorem c6_fetch_failure_aborts (pr : Provider) (latest : Int) (i : Nat) (e : String)
    (hn : pr.getBlockNumber = .ok latest) (hi : i < BLOCKS_TO_ANALYZE)
    (hf : pr.getBlockWithTransactions (latest - (i : Int)) = .error e) :
    ∃ msg, estimateTiers pr = .error msg ∧ calculateGasPrices pr = .error msg := by
  obtain ⟨msg, hmsg⟩ :=
    promiseAll_error (f := fun j => pr.getBlockWithTransactions (latest - (j : Int)))
      (List.mem_range.mpr hi) hf
  have hfb : fetchBlocks pr latest = .error msg := hmsg
  refine ⟨"Failed to calculate gas prices: " ++ msg, ?_, ?_⟩
  · unfold estimateTiers
    simp only [hn, hfb]
  · unfold calculateGasPrices
    simp only [hn, hfb]

theorem c6_fetch_failure_aborts_witness :
    (16 < BLOCKS_TO_ANALYZE ∧
      providerFail.getBlockWithTransactions (100 - (16 : Nat)) = .error "block fetch failed") ∧
    ∃ msg, estimateTiers providerFail = .error msg ∧
      calculateGasPrices providerFail = .error msg :=
  ⟨⟨by norm_num [BLOCKS_TO_ANALYZE], rfl⟩,
    c6_fetch_failure_aborts providerFail 100 16 "block fetch failed" rfl
      (by norm_num [BLOCKS_TO_ANALYZE]) rfl⟩

/-- C7: the code parses prices into IEEE-754 doubles, so a transaction
priced `2^53 + 1` is silently truncated to `2^53` and every tier of the
output is `2^53`, not the exact prescribed `2^53 + 1`: the arithmetic
width does lose precision beyond 53 bits. -/
theorem c7_double_truncation :
    calcTiersFromBlocks [some blockBigPrice] = some (2 ^ 53, 2 ^ 53, 2 ^ 53)
    ∧ (2 ^ 53 : Nat) ≠ 2 ^ 53 + 1 := ⟨by decide, by decide⟩

/-- C8: a transaction contributes a sample iff its gas price is present
and strictly positive, and an admitted transaction is a contract call
exactly when its payload extends beyond the bare `0x` marker. -/
theorem c8_admission_classification (age ts : Nat) (tx : Tx) :
    ((txSample age ts tx).isSome = true ↔ ∃ p, tx.gasPrice = some p ∧ 0 < p)
    ∧ (∀ payload s, tx.data = '0' :: 'x' :: payload →
        txSample age ts tx = some s → (s.isContractCall = true ↔ payload ≠ [])) := by
  constructor
  · cases hg : tx.gasPrice with
    | none => simp [txSample, hg]
    | some p =>
        by_cases hp : 0 < p
        · simp only [txSample, hg, if_pos hp, Option.isSome_some, true_iff]
          exact ⟨p, rfl, hp⟩
        · simp [txSample, hg, hp]
  · intro payload s hdata hsample
    unfold txSample at hsample
    cases hg : tx.gasPrice with
    | none => simp [hg] at hsample
    | some p =>
        simp only [hg] at hsample
        by_cases hp : 0 < p
        · rw [if_pos hp] at hsample
          have hs : s = ⟨rne53 p, age, isContractCallData tx.data, ts⟩ := by
            have hinj := Option.some.injEq _ _ ▸ hsample
            exact hinj.symm
          rw [hs, hdata]
          cases payload with
          | nil => simp [isContractCallData]
          | cons c cs => simp [isContractCallData]
        · rw [if_neg hp] at hsample
          cases hsample

theorem c8_admission_classification_witness :
    (txSample 0 0 ⟨some 5, ['0', 'x', 'f', 'f']⟩).isSome = true ∧
      (⟨5, 0, true, 0⟩ : Sample).isContractCall = true :=
  ⟨(c8_admission_classification 0 0 ⟨some 5, ['0', 'x', 'f', 'f']⟩).1.mpr
      ⟨5, rfl, by norm_num⟩,
    ((c8_admission_classification 0 0 ⟨some 5, ['0', 'x', 'f', 'f']⟩).2
      ['f', 'f'] ⟨5, 0, true, 0⟩ rfl (by decide)).mpr (by simp)⟩

/-- C9 (amended): the estimator itself performs the numeric-to-string
conversion: `calculateGasPrices` returns exactly the decimal renderings
of the numeric tiers computed by the estimation core, for every input. -/
theorem c9_stringifies_inside (pr : Provider) :
    calculateGasPrices pr =
      Except.map (fun t : Nat × Nat × Nat =>
        { safeLow := Nat.repr t.1, standard := Nat.repr t.2.1, fast := Nat.repr t.2.2 })
        (estimateTiers pr) := by
  unfold calculateGasPrices estimateTiers
  cases pr.getBlockNumber with
  | error e => simp [Except.map]
  | ok latest =>
      dsimp only
      cases fetchBlocks pr latest with
      | error e => simp [Except.map]
      | ok blocks =>
          dsimp only
          cases calcTiersFromBlocks blocks with
          | some t => simp [Except.map]
          | none =>
              dsimp only
              cases pr.getGasPrice with
              | error e => simp [Except.map]
              | ok base => simp [Except.map]

/-- C9 counterexample: the record returned by the estimator already
carries decimal strings — e.g. on an empty window with base price 100
the estimator itself returns `{"70", "100", "150"}`, so stringification
happens inside the engine, not at the HTTP boundary. -/
theorem c9_strings_inside_counterexample :
    calculateGasPrices providerEmptyWindow =
      .ok { safeLow := "70", standard := "100", fast := "150" } := rfl

/-- C10: the estimate depends only on the multiset of (price,
classification) pairs of the admitted transactions — the `blockAge` and
`timestamp` fields recorded in the samples never influence the output. -/
theorem c10_age_timestamp_irrelevant {bs₁ bs₂ : List (Option Block)}
    (h : List.Perm (samplePairs bs₁) (samplePairs bs₂)) :
    calcTiersFromBlocks bs₁ = calcTiersFromBlocks bs₂ := by
  have hlen : (samplesOfBlocks bs₁).length = (samplesOfBlocks bs₂).length := by
    have hl := h.length_eq
    simpa [samplePairs] using hl
  have hall : List.Perm ((samplesOfBlocks bs₁).map (fun s => s.price))
      ((samplesOfBlocks bs₂).map (fun s => s.price)) := by
    have hm := h.map (fun q : Nat × Bool => q.1)
    simpa [samplePairs, List.map_map, Function.comp] using hm
  have hcon : List.Perm
      (((samplesOfBlocks bs₁).filter (fun s => s.isContractCall)).map (fun s => s.price))
      (((samplesOfBlocks bs₂).filter (fun s => s.isContractCall)).map (fun s => s.price)) := by
    have hm := (h.filter (fun q : Nat × Bool => q.2)).map (fun q : Nat × Bool => q.1)
    simpa [samplePairs, List.filter_map, List.map_map, Function.comp] using hm
  have hps : primarySeq (samplesOfBlocks bs₁) = primarySeq (samplesOfBlocks bs₂) := by
    unfold primarySeq
    dsimp only
    rw [sortAsc_eq_of_perm hcon, sortAsc_eq_of_perm hall]
  unfold calcTiersFromBlocks
  dsimp only
  rw [hps, hlen]

theorem c10_age_timestamp_irrelevant_witness :
    List.Perm (samplePairs permBlocksA) (samplePairs permBlocksB) ∧
      calcTiersFromBlocks permBlocksA = calcTiersFromBlocks permBlocksB :=
  ⟨by decide, c10_age_timestamp_irrelevant (by decide)⟩

end GasLens
